import Mathlib

/-!
Verification of the OpenRouter examples repository's fixture-verification
and batch-run harness: the code extractor, fixture data-URI encoding,
size formatting, cache-probe classification, batch running with
partial-failure isolation, exit codes, API-key guards, and report
ordering under concurrency.

Text is modelled as `List Char`, bytes as `Nat` values below 256.
-/

namespace OpenRouterExamples

/-! ## Code extractor

Embedding of `extractCode` from `typescript/shared/src/fixtures.ts`:

    function extractCode(text: string): string | null {
      const match = text.match(/[A-Z]+-[A-Z0-9]{5}/);
      return match ? match[0] : null;
    }

The JavaScript regex engine tries start positions left to right.  At a
given start, `[A-Z]+` is greedy; since `-` and the characters of
`[A-Z0-9]` that could follow a shortened run are themselves uppercase
letters, only the maximal uppercase run can be followed by the literal
hyphen, so matching at a position reduces to: take the maximal run of
uppercase letters, require a hyphen, then exactly five
uppercase-or-digit characters. -/

/-- `[A-Z]` character class (code points 65–90). -/
def isUpper (c : Char) : Bool := 'A' ≤ c && c ≤ 'Z'

/-- `[0-9]` character class (code points 48–57). -/
def isDigitChar (c : Char) : Bool := '0' ≤ c && c ≤ '9'

/-- `[A-Z0-9]` character class. -/
def isUpperDigit (c : Char) : Bool := isUpper c || isDigitChar c

/-- Length of the maximal run of `[A-Z]` characters at the head. -/
def upperRun : List Char → Nat
  | [] => 0
  | c :: rest => if isUpper c then upperRun rest + 1 else 0

/-- Attempt to match `[A-Z]+-[A-Z0-9]{5}` anchored at the head of `s`,
returning the matched characters. -/
def matchAt (s : List Char) : Option (List Char) :=
  if upperRun s = 0 then none
  else
    match s.drop (upperRun s) with
    | '-' :: rest =>
        if (rest.take 5).length = 5 && (rest.take 5).all isUpperDigit then
          some (s.take (upperRun s) ++ '-' :: rest.take 5)
        else none
    | _ => none

/-- `extractCode`: first match of `[A-Z]+-[A-Z0-9]{5}` scanning start
positions left to right, `none` when no position matches. -/
def extractCode : List Char → Option (List Char)
  | [] => none
  | c :: rest =>
      match matchAt (c :: rest) with
      | some m => some m
      | none => extractCode rest

/-- Spec-side description of the code pattern, written from the spec's
words: one or more uppercase letters, a hyphen, then exactly five
uppercase-letter-or-digit characters. -/
def specPattern (m : List Char) : Prop :=
  ∃ a b, m = a ++ '-' :: b ∧ a ≠ [] ∧ (∀ c ∈ a, isUpper c = true) ∧
    b.length = 5 ∧ (∀ c ∈ b, isUpperDigit c = true)

/-- The list `m` occurs in `s` starting at index `i`. -/
def occursAt (s m : List Char) (i : Nat) : Prop :=
  (s.drop i).take m.length = m

/-- A spec-pattern match exists starting at index `i` of `s`. -/
def specMatchAt (s : List Char) (i : Nat) : Prop :=
  ∃ m, specPattern m ∧ occursAt s m i

lemma specPattern_ne_nil {m : List Char} (h : specPattern m) : m ≠ [] := by
  obtain ⟨a, b, rfl, -, -, -, -⟩ := h
  simp

lemma upperRun_le_length (s : List Char) : upperRun s ≤ s.length := by
  induction s with
  | nil => simp [upperRun]
  | cons c rest ih =>
      simp only [upperRun, List.length_cons]
      split <;> omega

lemma take_upperRun_upper (s : List Char) :
    ∀ c ∈ s.take (upperRun s), isUpper c = true := by
  induction s with
  | nil => simp [upperRun]
  | cons c rest ih =>
      simp only [upperRun]
      split
      · rename_i hc
        intro x hx
        rcases List.mem_cons.mp (by simpa using hx) with h | h
        · exact h ▸ hc
        · exact ih x h
      · simp

lemma upperRun_cons_true {c : Char} (rest : List Char) (h : isUpper c = true) :
    upperRun (c :: rest) = upperRun rest + 1 := by
  simp [upperRun, h]

lemma upperRun_append {a : List Char} (rest : List Char)
    (ha : ∀ c ∈ a, isUpper c = true) {c : Char} (hc : isUpper c = false) :
    upperRun (a ++ c :: rest) = a.length := by
  induction a with
  | nil => simp [upperRun, hc]
  | cons x xs ih =>
      have hx : isUpper x = true := ha x (List.mem_cons_self x xs)
      rw [List.cons_append, upperRun_cons_true _ hx,
        ih (fun c hc => ha c (List.mem_cons_of_mem x hc)), List.length_cons]

lemma isUpper_hyphen : isUpper '-' = false := by decide

/-- `matchAt` succeeds exactly on the unique spec-pattern match anchored at
the head. -/
theorem matchAt_eq_some_iff (s m : List Char) :
    matchAt s = some m ↔ specPattern m ∧ occursAt s m 0 := by
  constructor
  · intro h
    unfold matchAt at h
    split at h
    · exact absurd h (by simp)
    · rename_i hk
      split at h
      · rename_i rest hd
        split at h
        · rename_i hfive
          simp only [Bool.and_eq_true, decide_eq_true_eq, List.all_eq_true] at hfive
          obtain ⟨hlen5, hud⟩ := hfive
          injection h with h
          subst h
          have hkle : upperRun s ≤ s.length := upperRun_le_length s
          have htk : (s.take (upperRun s)).length = upperRun s := by
            simp [List.length_take, Nat.min_eq_left hkle]
          constructor
          · refine ⟨s.take (upperRun s), rest.take 5, rfl, ?_,
              take_upperRun_upper s, hlen5, hud⟩
            intro hnil
            rw [hnil] at htk
            simp at htk
            omega
          · unfold occursAt
            rw [List.drop_zero]
            have hlen : (s.take (upperRun s) ++ '-' :: rest.take 5).length
                = upperRun s + 6 := by
              simp [htk, hlen5]
            rw [hlen]
            have hsplit : s = s.take (upperRun s) ++ '-' :: rest := by
              conv_lhs => rw [← List.take_append_drop (upperRun s) s, hd]
            calc s.take (upperRun s + 6)
                = (s.take (upperRun s) ++ '-' :: rest).take (upperRun s + 6) := by
                  rw [← hsplit]
              _ = (s.take (upperRun s)).take (upperRun s + 6)
                  ++ ('-' :: rest).take (upperRun s + 6 - (s.take (upperRun s)).length) :=
                  List.take_append_eq_append_take
              _ = s.take (upperRun s) ++ '-' :: rest.take 5 := by
                  rw [List.take_of_length_le (htk ▸ (by omega : (s.take (upperRun s)).length ≤ upperRun s + 6)), htk]
                  have h6 : upperRun s + 6 - upperRun s = 6 := by omega
                  rw [h6, List.take_succ_cons]
        · exact absurd h (by simp)
      · exact absurd h (by simp)
  · rintro ⟨⟨a, b, rfl, ha0, ha, hb5, hb⟩, hocc⟩
    unfold occursAt at hocc
    rw [List.drop_zero] at hocc
    have hs : s = a ++ '-' :: (b ++ s.drop (a ++ '-' :: b).length) := by
      conv_lhs => rw [← List.take_append_drop (a ++ '-' :: b).length s]
      rw [hocc, List.append_assoc, List.cons_append]
    have hrun : upperRun s = a.length := by
      conv_lhs => rw [hs]
      exact upperRun_append _ ha isUpper_hyphen
    have halen : a.length ≠ 0 := by
      intro h; exact ha0 (List.eq_nil_of_length_eq_zero h)
    have hdrop : s.drop a.length = '-' :: (b ++ s.drop (a ++ '-' :: b).length) := by
      conv_lhs => rw [hs]
      exact List.drop_left a _
    have htake : s.take a.length = a := by
      conv_lhs => rw [hs]
      exact List.take_left a _
    have hbtake : (b ++ s.drop (a ++ '-' :: b).length).take 5 = b :=
      List.take_left' hb5
    unfold matchAt
    rw [hrun, if_neg halen]
    split
    · rename_i rest' hd'
      rw [hdrop] at hd'
      injection hd' with _ hrest
      subst hrest
      rw [hbtake, htake]
      have hc : (decide (b.length = 5) && b.all isUpperDigit) = true := by
        simp only [Bool.and_eq_true, decide_eq_true_eq, List.all_eq_true]
        exact ⟨hb5, hb⟩
      rw [if_pos hc]
    · rename_i hne
      exact absurd hdrop (hne _)

lemma matchAt_none_of (s : List Char) (h : matchAt s = none) : ¬ specMatchAt s 0 := by
  rintro ⟨m, hp, ho⟩
  rw [(matchAt_eq_some_iff s m).mpr ⟨hp, ho⟩] at h
  exact Option.noConfusion h

lemma specMatchAt_cons_succ (c : Char) (rest : List Char) (j : Nat) :
    specMatchAt (c :: rest) (j + 1) ↔ specMatchAt rest j := by
  unfold specMatchAt occursAt
  simp [List.drop_succ_cons]

lemma not_specMatchAt_nil (i : Nat) : ¬ specMatchAt ([] : List Char) i := by
  rintro ⟨m, hp, ho⟩
  unfold occursAt at ho
  simp only [List.drop_nil, List.take_nil] at ho
  exact specPattern_ne_nil hp ho.symm

/-- `extractCode` returns `m` exactly when `m` is the spec-pattern match at
some index before which no index carries a spec-pattern match. -/
theorem extractCode_eq_some_iff (s m : List Char) :
    extractCode s = some m ↔
      ∃ i, (specPattern m ∧ occursAt s m i) ∧ ∀ j, j < i → ¬ specMatchAt s j := by
  induction s with
  | nil =>
      simp only [extractCode]
      constructor
      · intro h; exact absurd h (by simp)
      · rintro ⟨i, ⟨hp, ho⟩, -⟩
        exact absurd ⟨m, hp, ho⟩ (not_specMatchAt_nil i)
  | cons c rest ih =>
      cases h : matchAt (c :: rest) with
      | some m0 =>
          simp only [extractCode, h]
          constructor
          · intro hm
            injection hm with hm
            subst hm
            obtain ⟨hp, ho⟩ := (matchAt_eq_some_iff _ _).mp h
            exact ⟨0, ⟨hp, ho⟩, by omega⟩
          · rintro ⟨i, ⟨hp, ho⟩, hmin⟩
            cases i with
            | zero =>
                have := (matchAt_eq_some_iff (c :: rest) m).mpr ⟨hp, ho⟩
                rw [h] at this
                injection this with this
                rw [this]
            | succ i' =>
                exact absurd ⟨m0, (matchAt_eq_some_iff _ _).mp h⟩
                  (hmin 0 (Nat.succ_pos i'))
      | none =>
          have h0 : ¬ specMatchAt (c :: rest) 0 := matchAt_none_of _ h
          simp only [extractCode, h]
          rw [ih]
          constructor
          · rintro ⟨i, ⟨hp, ho⟩, hmin⟩
            refine ⟨i + 1, ⟨hp, ?_⟩, ?_⟩
            · unfold occursAt at ho ⊢
              simpa [List.drop_succ_cons] using ho
            · intro j hj
              cases j with
              | zero => exact h0
              | succ j' =>
                  rw [specMatchAt_cons_succ]
                  exact hmin j' (by omega)
          · rintro ⟨i, ⟨hp, ho⟩, hmin⟩
            cases i with
            | zero => exact absurd ⟨m, hp, ho⟩ h0
            | succ i' =>
                refine ⟨i', ⟨hp, ?_⟩, ?_⟩
                · unfold occursAt at ho ⊢
                  simpa [List.drop_succ_cons] using ho
                · intro j hj
                  rw [← specMatchAt_cons_succ c rest j]
                  exact hmin (j + 1) (by omega)

/-- `extractCode` returns `none` exactly when no index carries a
spec-pattern match. -/
theorem extractCode_eq_none_iff (s : List Char) :
    extractCode s = none ↔ ∀ i, ¬ specMatchAt s i := by
  induction s with
  | nil =>
      constructor
      · intro _ i
        exact not_specMatchAt_nil i
      · intro _
        rfl
  | cons c rest ih =>
      cases h : matchAt (c :: rest) with
      | some m0 =>
          simp only [extractCode, h]
          constructor
          · intro h'; exact absurd h' (by simp)
          · intro hall
            exact absurd ⟨m0, (matchAt_eq_some_iff _ _).mp h⟩ (hall 0)
      | none =>
          have h0 : ¬ specMatchAt (c :: rest) 0 := matchAt_none_of _ h
          simp only [extractCode, h]
          rw [ih]
          constructor
          · intro hall i
            cases i with
            | zero => exact h0
            | succ i' => rw [specMatchAt_cons_succ]; exact hall i'
          · intro hall i
            rw [← specMatchAt_cons_succ c rest i]
            exact hall (i + 1)

lemma head?_eq_of_take_eq_cons {α : Type*} {l t : List α} {n : Nat} {c : α}
    (h : l.take n = c :: t) : l.head? = some c := by
  cases l with
  | nil => simp at h
  | cons x xs =>
      cases n with
      | zero => simp at h
      | succ k =>
          rw [List.take_succ_cons] at h
          injection h with h1 _
          simp [h1]

/-- Any spec-pattern match at index `j` forces the character of `s` at
index `j` to be an uppercase letter. -/
lemma specMatchAt_head_upper {s : List Char} {j : Nat} (h : specMatchAt s j) :
    ∃ c, s[j]? = some c ∧ isUpper c = true := by
  obtain ⟨m, ⟨a, b, rfl, ha0, ha, -, -⟩, ho⟩ := h
  obtain ⟨c0, a', rfl⟩ := List.exists_cons_of_ne_nil ha0
  unfold occursAt at ho
  rw [List.cons_append] at ho
  have hh := head?_eq_of_take_eq_cons ho
  rw [List.head?_drop] at hh
  exact ⟨c0, hh, ha c0 (List.mem_cons_self c0 a')⟩

end OpenRouterExamples

namespace OpenRouterExamples

/-- C1: `extractCode` returns exactly the first left-to-right substring of
the input matching "one or more uppercase letters, a hyphen, then exactly
five uppercase-letter-or-digit characters" (returned verbatim), and `none`
when no position of the input carries such a match; every returned string
satisfies the case-sensitive uppercase-only pattern, so a lowercase or
partially-matching string is never returned. -/
theorem C1_extractCode_first_match (s : List Char) :
    (∀ m, extractCode s = some m ↔
        ∃ i, (specPattern m ∧ occursAt s m i) ∧ ∀ j, j < i → ¬ specMatchAt s j)
    ∧ (extractCode s = none ↔ ∀ i, ¬ specMatchAt s i) :=
  ⟨fun m => extractCode_eq_some_iff s m, extractCode_eq_none_iff s⟩

/-- Witness for C1 at a concrete input: from
`extractCode "The code is MEDIUM-K4P8R, thanks" = some "MEDIUM-K4P8R"`
the theorem yields the first-match characterisation. -/
theorem C1_extractCode_first_match_witness :
    ∃ i, (specPattern (String.toList "MEDIUM-K4P8R")
        ∧ occursAt (String.toList "The code is MEDIUM-K4P8R, thanks")
            (String.toList "MEDIUM-K4P8R") i)
      ∧ ∀ j, j < i → ¬ specMatchAt (String.toList "The code is MEDIUM-K4P8R, thanks") j :=
  ((C1_extractCode_first_match (String.toList "The code is MEDIUM-K4P8R, thanks")).1
    (String.toList "MEDIUM-K4P8R")).mp (by decide)

/-- C2 counterexample: the text `"ZZZ-00000 SMALL-7X9Q2"` verbatim contains
the expected code `"SMALL-7X9Q2"` (it occurs at index 10), yet
`extractCode` returns the earlier match `"ZZZ-00000"`, not the expected
code — the claim's universally quantified round-trip fails. -/
theorem C2_roundtrip_counterexample :
    occursAt (String.toList "ZZZ-00000 SMALL-7X9Q2") (String.toList "SMALL-7X9Q2") 10
    ∧ extractCode (String.toList "ZZZ-00000 SMALL-7X9Q2")
        = some (String.toList "ZZZ-00000")
    ∧ extractCode (String.toList "ZZZ-00000 SMALL-7X9Q2")
        ≠ some (String.toList "SMALL-7X9Q2") := by
  refine ⟨by unfold occursAt; decide, by decide, by decide⟩

lemma occursAt_drop (s m : List Char) (j : Nat) :
    occursAt s m j ↔ occursAt (s.drop j) m 0 := by
  unfold occursAt
  rw [List.drop_zero]

/-- A spec-pattern match exists at index `j` exactly when the anchored
matcher succeeds on the tail starting there — making the first-match
side condition checkable by evaluation. -/
lemma specMatchAt_iff_isSome (s : List Char) (j : Nat) :
    specMatchAt s j ↔ (matchAt (s.drop j)).isSome = true := by
  constructor
  · rintro ⟨m, hp, ho⟩
    rw [(matchAt_eq_some_iff (s.drop j) m).mpr ⟨hp, (occursAt_drop s m j).mp ho⟩]
    rfl
  · intro h
    obtain ⟨m, hm⟩ := Option.isSome_iff_exists.mp h
    obtain ⟨hp, ho⟩ := (matchAt_eq_some_iff _ _).mp hm
    exact ⟨m, hp, (occursAt_drop s m j).mpr ho⟩

/-- C2 amended: `extractCode` applied to a text that verbatim contains the
expected code returns exactly that code provided the code's occurrence is
the first left-to-right pattern match, i.e. no index before it carries a
pattern match; concretely
`extractCode "SMALL-7X9Q2" = some "SMALL-7X9Q2"`,
`extractCode "The code is MEDIUM-K4P8R, thanks" = some "MEDIUM-K4P8R"`,
and `extractCode "no code here" = none`. -/
theorem C2_roundtrip_amended :
    (∀ pre code post : List Char, specPattern code →
        (∀ j, j < pre.length → ¬ specMatchAt (pre ++ (code ++ post)) j) →
        extractCode (pre ++ (code ++ post)) = some code)
    ∧ extractCode (String.toList "SMALL-7X9Q2") = some (String.toList "SMALL-7X9Q2")
    ∧ extractCode (String.toList "The code is MEDIUM-K4P8R, thanks")
        = some (String.toList "MEDIUM-K4P8R")
    ∧ extractCode (String.toList "no code here") = none := by
  refine ⟨?_, by decide, by decide, by decide⟩
  intro pre code post hcode hfirst
  rw [extractCode_eq_some_iff]
  refine ⟨pre.length, ⟨hcode, ?_⟩, hfirst⟩
  unfold occursAt
  rw [List.drop_left, List.take_left]

/-- Witness for C2's amended theorem at concrete inputs: prefix
`"Your code: "` (which contains an uppercase letter but no pattern
match), code `"SMALL-7X9Q2"`, suffix `"!"`. -/
theorem C2_roundtrip_amended_witness :
    extractCode (String.toList "Your code: " ++ (String.toList "SMALL-7X9Q2" ++ String.toList "!"))
      = some (String.toList "SMALL-7X9Q2") := by
  have hd : ∀ k, k < (String.toList "Your code: ").length →
      (matchAt ((String.toList "Your code: "
        ++ (String.toList "SMALL-7X9Q2" ++ String.toList "!")).drop k)).isSome = false := by
    decide
  refine C2_roundtrip_amended.1 (String.toList "Your code: ") (String.toList "SMALL-7X9Q2")
    (String.toList "!")
    ⟨String.toList "SMALL", String.toList "7X9Q2",
      by decide, by decide, by decide, by decide, by decide⟩ ?_
  intro j hj hmatch
  rw [specMatchAt_iff_isSome] at hmatch
  rw [hd j hj] at hmatch
  exact Bool.noConfusion hmatch

/-- C10: `extractCode` imposes no boundary after the fifth trailing
character nor before the leading letters: `"SMALL-7X9Q2A"` still yields the
five-character-truncated match `"SMALL-7X9Q2"`, and a preceding uppercase
letter is absorbed: `"XSMALL-7X9Q2"` yields `"XSMALL-7X9Q2"`. -/
theorem C10_extractCode_no_boundary :
    extractCode (String.toList "SMALL-7X9Q2A") = some (String.toList "SMALL-7X9Q2")
    ∧ extractCode (String.toList "XSMALL-7X9Q2") = some (String.toList "XSMALL-7X9Q2") :=
  ⟨by decide, by decide⟩

/-! ## Fixture accessor: data-URI encoding

Embedding of `readPdfAsDataUrl` from `typescript/shared/src/fixtures.ts`:

    const pdfBuffer = await pdfFile.arrayBuffer();
    const base64PDF = Buffer.from(pdfBuffer).toString('base64');
    return `data:application/pdf;base64,${base64PDF}`;

The file read is modelled by passing the fixture's raw bytes (each a `Nat`
below 256); `Buffer.toString('base64')` is the standard RFC 4648 base64
encoding with `=` padding. -/

/-- The base64 alphabet used by `Buffer.toString('base64')`. -/
def b64Alphabet : List Char :=
  String.toList "ABCDEFGHIJKLMNOPQRSTUVWXYZabcdefghijklmnopqrstuvwxyz0123456789+/"

/-- Digit `n` (0–63) of the base64 alphabet. -/
def b64Char (n : Nat) : Char := b64Alphabet.getD n '?'

/-- Index of character `c` in the base64 alphabet. -/
def b64Value (c : Char) : Nat := b64Alphabet.indexOf c

/-- Base64 encoding of a byte sequence, three bytes to four digits, with
`=` padding exactly as `Buffer.toString('base64')` produces it. -/
def base64Encode : List Nat → List Char
  | [] => []
  | [b1] => [b64Char (b1 / 4), b64Char (b1 % 4 * 16), '=', '=']
  | [b1, b2] =>
      [b64Char (b1 / 4), b64Char (b1 % 4 * 16 + b2 / 16), b64Char (b2 % 16 * 4), '=']
  | b1 :: b2 :: b3 :: rest =>
      b64Char (b1 / 4) :: b64Char (b1 % 4 * 16 + b2 / 16) ::
      b64Char (b2 % 16 * 4 + b3 / 64) :: b64Char (b3 % 64) :: base64Encode rest

/-- Base64 decoding, the inverse direction used to state that encoding
loses no bytes (no truncation). -/
def base64Decode : List Char → List Nat
  | c1 :: c2 :: c3 :: c4 :: rest =>
      if c3 = '=' then [b64Value c1 * 4 + b64Value c2 / 16]
      else if c4 = '=' then
        [b64Value c1 * 4 + b64Value c2 / 16, b64Value c2 % 16 * 16 + b64Value c3 / 4]
      else
        (b64Value c1 * 4 + b64Value c2 / 16) ::
        (b64Value c2 % 16 * 16 + b64Value c3 / 4) ::
        (b64Value c3 % 4 * 64 + b64Value c4) :: base64Decode rest
  | _ => []

/-- `readPdfAsDataUrl`: base64-encode the fixture's raw bytes and attach
the fixed `data:application/pdf;base64,` head. -/
def readPdfAsDataUrl (bytes : List Nat) : List Char :=
  String.toList "data:application/pdf;base64," ++ base64Encode bytes

lemma b64Value_b64Char : ∀ n, n < 64 → b64Value (b64Char n) = n := by decide

lemma b64Char_ne_pad : ∀ n, n < 64 → b64Char n ≠ '=' := by decide

lemma base64Decode_cons4 (c1 c2 c3 c4 : Char) (rest : List Char) :
    base64Decode (c1 :: c2 :: c3 :: c4 :: rest) =
      if c3 = '=' then [b64Value c1 * 4 + b64Value c2 / 16]
      else if c4 = '=' then
        [b64Value c1 * 4 + b64Value c2 / 16, b64Value c2 % 16 * 16 + b64Value c3 / 4]
      else
        (b64Value c1 * 4 + b64Value c2 / 16) ::
        (b64Value c2 % 16 * 16 + b64Value c3 / 4) ::
        (b64Value c3 % 4 * 64 + b64Value c4) :: base64Decode rest := rfl

/-- Decoding inverts encoding on genuine byte sequences: the data-URI
payload carries every input byte (no truncation), at any input size. -/
theorem base64_roundtrip : ∀ bs : List Nat, (∀ b ∈ bs, b < 256) →
    base64Decode (base64Encode bs) = bs
  | [], _ => rfl
  | [b1], h => by
      have hb1 : b1 < 256 := h b1 (by simp)
      rw [show base64Encode [b1]
          = [b64Char (b1 / 4), b64Char (b1 % 4 * 16), '=', '='] from rfl]
      rw [base64Decode_cons4, if_pos rfl]
      rw [b64Value_b64Char _ (by omega), b64Value_b64Char _ (by omega)]
      have e1 : b1 / 4 * 4 + b1 % 4 * 16 / 16 = b1 := by omega
      rw [e1]
  | [b1, b2], h => by
      have hb1 : b1 < 256 := h b1 (by simp)
      have hb2 : b2 < 256 := h b2 (by simp)
      rw [show base64Encode [b1, b2]
          = [b64Char (b1 / 4), b64Char (b1 % 4 * 16 + b2 / 16),
             b64Char (b2 % 16 * 4), '='] from rfl]
      rw [base64Decode_cons4, if_neg (b64Char_ne_pad _ (by omega)), if_pos rfl]
      rw [b64Value_b64Char _ (by omega), b64Value_b64Char _ (by omega),
        b64Value_b64Char _ (by omega)]
      have e1 : b1 / 4 * 4 + (b1 % 4 * 16 + b2 / 16) / 16 = b1 := by omega
      have e2 : (b1 % 4 * 16 + b2 / 16) % 16 * 16 + b2 % 16 * 4 / 4 = b2 := by omega
      rw [e1, e2]
  | b1 :: b2 :: b3 :: rest, h => by
      have hb1 : b1 < 256 := h b1 (by simp)
      have hb2 : b2 < 256 := h b2 (by simp)
      have hb3 : b3 < 256 := h b3 (by simp)
      have ih := base64_roundtrip rest (fun b hb => h b (by simp [hb]))
      rw [show base64Encode (b1 :: b2 :: b3 :: rest)
          = b64Char (b1 / 4) :: b64Char (b1 % 4 * 16 + b2 / 16) ::
            b64Char (b2 % 16 * 4 + b3 / 64) :: b64Char (b3 % 64) ::
            base64Encode rest from rfl]
      rw [base64Decode_cons4, if_neg (b64Char_ne_pad _ (by omega)),
        if_neg (b64Char_ne_pad _ (by omega))]
      rw [b64Value_b64Char _ (by omega), b64Value_b64Char _ (by omega),
        b64Value_b64Char _ (by omega), b64Value_b64Char _ (by omega)]
      rw [ih]
      have e1 : b1 / 4 * 4 + (b1 % 4 * 16 + b2 / 16) / 16 = b1 := by omega
      have e2 : (b1 % 4 * 16 + b2 / 16) % 16 * 16 + (b2 % 16 * 4 + b3 / 64) / 4 = b2 := by
        omega
      have e3 : (b2 % 16 * 4 + b3 / 64) % 4 * 64 + b3 % 64 = b3 := by omega
      rw [e1, e2, e3]

/-- C6: `read_as_data_uri` is pure and idempotent — on the same unchanged
fixture bytes it returns byte-identical strings — and the returned string
is exactly the base64 encoding of the raw bytes behind the
`data:application/pdf;base64,` head; decoding recovers every byte, so no
input of any size is truncated. -/
theorem C6_readPdfAsDataUrl_pure_idempotent (bytes : List Nat)
    (h : ∀ b ∈ bytes, b < 256) :
    readPdfAsDataUrl bytes = readPdfAsDataUrl bytes
    ∧ readPdfAsDataUrl bytes
        = String.toList "data:application/pdf;base64," ++ base64Encode bytes
    ∧ base64Decode (base64Encode bytes) = bytes :=
  ⟨rfl, rfl, base64_roundtrip bytes h⟩

/-- Witness for C6 at the concrete byte sequence `[0, 100, 255, 38]`. -/
theorem C6_readPdfAsDataUrl_witness :
    readPdfAsDataUrl [0, 100, 255, 38] = readPdfAsDataUrl [0, 100, 255, 38]
    ∧ readPdfAsDataUrl [0, 100, 255, 38]
        = String.toList "data:application/pdf;base64," ++ base64Encode [0, 100, 255, 38]
    ∧ base64Decode (base64Encode [0, 100, 255, 38]) = [0, 100, 255, 38] :=
  C6_readPdfAsDataUrl_pure_idempotent [0, 100, 255, 38] (by decide)

/-! ## Size formatting

Embedding of `formatSize` from fixtures.ts:

    if (bytes < 1024 * 1024) return `KB-string of (bytes / 1024).toFixed(0)`;
    return `MB-string of (bytes / (1024 * 1024)).toFixed(1)`;

ECMA-262 `toFixed(f)` picks the integer n for which `n / 10^f` is closest
to the value, the larger n on ties.  For byte counts in the fixture range
the divisions by powers of two are exact in double precision, so the
rounding acts on the exact rational `bytes / 2^10` (resp. `bytes / 2^20`):
n = floor of (value * 10^f + 1/2). -/

/-- `toFixed(0)` on the exact rational `num / den`: nearest integer,
ties toward the larger. -/
def toFixed0 (num den : Nat) : Nat := (2 * num + den) / (2 * den)

/-- `toFixed(1)` on `num / den`, returned in tenths: nearest multiple of
one tenth, ties toward the larger. -/
def toFixed1 (num den : Nat) : Nat := (2 * 10 * num + den) / (2 * den)

/-- `formatSize`: integral kibibytes below 1 MiB, mebibytes with one
decimal place otherwise. -/
def formatSize (bytes : Nat) : String :=
  if bytes < 1024 * 1024 then
    toString (toFixed0 bytes 1024) ++ " KB"
  else
    toString (toFixed1 bytes (1024 * 1024) / 10) ++ "." ++
      toString (toFixed1 bytes (1024 * 1024) % 10) ++ " MB"

/-- C7: byte counts strictly below 1 MiB render in kibibyte units, byte
counts of 1 MiB or more render in mebibytes with exactly one decimal
place; `format_size(1023*1024)` renders in KB units and
`format_size(1024*1024)` renders as `"1.0 MB"`. -/
theorem C7_formatSize_boundary :
    (∀ b : Nat, b < 1024 * 1024 → ∃ k : Nat, formatSize b = toString k ++ " KB")
    ∧ (∀ b : Nat, 1024 * 1024 ≤ b → ∃ w t : Nat, t < 10
        ∧ formatSize b = toString w ++ "." ++ toString t ++ " MB")
    ∧ formatSize (1023 * 1024) = "1023 KB"
    ∧ formatSize (1024 * 1024) = "1.0 MB" := by
  refine ⟨?_, ?_, by decide, by decide⟩
  · intro b hb
    exact ⟨toFixed0 b 1024, by rw [formatSize, if_pos hb]⟩
  · intro b hb
    refine ⟨toFixed1 b (1024 * 1024) / 10, toFixed1 b (1024 * 1024) % 10,
      Nat.mod_lt _ (by norm_num), ?_⟩
    rw [formatSize, if_neg (by omega), String.append_assoc, String.append_assoc]

/-- Witness for C7 at 512 KiB and 2.5 MiB. -/
theorem C7_formatSize_boundary_witness :
    (∃ k : Nat, formatSize 524288 = toString k ++ " KB")
    ∧ (∃ w t : Nat, t < 10 ∧ formatSize 2621440 = toString w ++ "." ++ toString t ++ " MB") :=
  ⟨C7_formatSize_boundary.1 524288 (by norm_num),
   C7_formatSize_boundary.2.1 2621440 (by norm_num)⟩

/-! ## Cache-probe classification

Embedding of the analysis section of
`typescript/fetch/src/prompt-caching/anthropic-multi-message-cache.ts`:

    const cached1 = response1.usage.prompt_tokens_details?.cached_tokens ?? 0;
    const cached2 = response2.usage.prompt_tokens_details?.cached_tokens ?? 0;
    if (cached1 === 0) { first call cache miss } else { first call unexpectedly had cached tokens }
    if (cached2 > 0) { second call cache hit } else { second call did NOT hit cache }
    const success = cached1 === 0 && cached2 > 0;   // CACHE WORKING / CACHE NOT WORKING

and of the control variant `anthropic-no-cache-control.ts`:

    const success = cached1 === 0 && cached2 === 0; // CONTROL VALID / CONTROL INVALID

An absent `prompt_tokens_details.cached_tokens` field is `none`. -/

/-- The `?? 0` defaulting of a possibly-absent cached-token count. -/
def cachedTokensOrZero (v : Option Nat) : Nat := v.getD 0

/-- Outcome of the cache-probe analysis: the two per-call log branches and
the final success verdict. -/
structure CacheAnalysis where
  firstCallMiss : Bool
  secondCallHit : Bool
  success : Bool
  deriving DecidableEq

/-- Analysis of a probe pair from the two responses' cached-token fields. -/
def analyzeCachePair (v1 v2 : Option Nat) : CacheAnalysis :=
  { firstCallMiss := cachedTokensOrZero v1 == 0
    secondCallHit := decide (cachedTokensOrZero v2 > 0)
    success := cachedTokensOrZero v1 == 0 && decide (cachedTokensOrZero v2 > 0) }

/-- Control-mode verdict (no cache directive sent). -/
def analyzeControlPair (v1 v2 : Option Nat) : Bool :=
  cachedTokensOrZero v1 == 0 && cachedTokensOrZero v2 == 0

/-- C3: with cached-token counts defaulted to 0 when absent, the pair is
classified cache-working exactly when the first count is 0 and the second
positive; whenever the second count remains 0 the verdict is
cache-not-working; the control verdict holds exactly when both counts are
0; and on `(120, 150)` the analysis flags the unexpected first-call cache
hit and does not report success. -/
theorem C3_cache_classification (v1 v2 : Option Nat) :
    ((analyzeCachePair v1 v2).success = true
      ↔ cachedTokensOrZero v1 = 0 ∧ 0 < cachedTokensOrZero v2)
    ∧ (cachedTokensOrZero v2 = 0 → (analyzeCachePair v1 v2).success = false)
    ∧ (analyzeControlPair v1 v2 = true
      ↔ cachedTokensOrZero v1 = 0 ∧ cachedTokensOrZero v2 = 0)
    ∧ ((analyzeCachePair (some 120) (some 150)).firstCallMiss = false
       ∧ (analyzeCachePair (some 120) (some 150)).success = false) := by
  refine ⟨?_, ?_, ?_, by decide⟩
  · simp [analyzeCachePair]
  · intro h2
    simp [analyzeCachePair, h2]
  · simp [analyzeControlPair]

/-- Witness for C3: second count 0 (absent field) forces a
cache-not-working verdict. -/
theorem C3_cache_classification_witness :
    (analyzeCachePair (some 0) none).success = false :=
  (C3_cache_classification (some 0) none).2.1 rfl

/-! ## Batch runner

Embedding of the batch loop shared by the file-parser entry points
(`typescript/fetch/src/plugin-file-parser/file-parser-all-sizes.ts` and
its Effect variant):

    for each size of PDF_SIZES:
      try { expectedCode = readExpectedCode(size); result = processPdf(size, expectedCode);
            record result }
      catch (error) { record a failed result }
    passed = number of successful results;
    exit(passed === total ? 0 : 1);

The Effect variant's per-case recovery returns
`{ success: false, extracted: null, expected: '' }`.  A case's interaction
with the fixture store and the remote model is an oracle
`runCase : PdfSize → Except String PdfResult`: `Except.error` is a thrown
failure (missing fixture, corrupt metadata, remote-call error),
`Except.ok` a normally-evaluated case. -/

/-- `PDF_SIZES` entries from fixtures.ts. -/
inductive PdfSize
  | small
  | medium
  | large
  | xlarge
  deriving DecidableEq

/-- `PDF_SIZES`, in declaration order. -/
def PDF_SIZES : List PdfSize := [.small, .medium, .large, .xlarge]

/-- Per-case outcome record of the Effect file-parser example. -/
structure PdfResult where
  success : Bool
  extracted : Option (List Char)
  expected : List Char
  deriving DecidableEq

/-- The catch-branch result: a failed case with no extracted code. -/
def logFailureResult : PdfResult :=
  { success := false, extracted := none, expected := [] }

/-- One batch pass: each case's error is caught at that case's boundary
and converted into `logFailureResult`; the remaining cases still run. -/
def runAllSizes (runCase : PdfSize → Except String PdfResult) : List PdfResult :=
  PDF_SIZES.map fun size =>
    match runCase size with
    | Except.ok r => r
    | Except.error _ => logFailureResult

/-- `passed` of the final report. -/
def passedCount (results : List PdfResult) : Nat :=
  (results.filter fun r => r.success).length

/-- Exit-code derivation of the batch entry points: 0 when
`passed === total`, else 1. -/
def batchExitCode (results : List PdfResult) : Nat :=
  if passedCount results = results.length then 0 else 1

/-- Whole-program exit code of a batch run. -/
def programExitCode (runCase : PdfSize → Except String PdfResult) : Nat :=
  batchExitCode (runAllSizes runCase)

/-- C4: an error in a single case is caught at that case's boundary and
recorded as a failed result with no extracted code while the remaining
cases still execute: with the `large` case failing and `small`, `medium`,
`xlarge` evaluating normally (and passing), the run completes with all
four slots filled, exactly one failed case, three passing cases, and a
non-zero exit code. -/
theorem C4_partial_failure_isolation
    (runCase : PdfSize → Except String PdfResult) (e : String) (rs rm rx : PdfResult)
    (h1 : runCase .small = .ok rs) (h2 : runCase .medium = .ok rm)
    (h3 : runCase .large = .error e) (h4 : runCase .xlarge = .ok rx)
    (hok : rs.success = true ∧ rm.success = true ∧ rx.success = true) :
    runAllSizes runCase = [rs, rm, logFailureResult, rx]
    ∧ logFailureResult.success = false
    ∧ logFailureResult.extracted = none
    ∧ passedCount (runAllSizes runCase) = 3
    ∧ (runAllSizes runCase).length = 4
    ∧ programExitCode runCase = 1 := by
  obtain ⟨hs, hm, hx⟩ := hok
  have hrun : runAllSizes runCase = [rs, rm, logFailureResult, rx] := by
    simp [runAllSizes, PDF_SIZES, h1, h2, h3, h4]
  have hpass : passedCount (runAllSizes runCase) = 3 := by
    rw [hrun]
    simp [passedCount, List.filter, hs, hm, hx, logFailureResult]
  refine ⟨hrun, rfl, rfl, hpass, by rw [hrun]; rfl, ?_⟩
  rw [programExitCode, batchExitCode, hpass, hrun]
  norm_num

/-- A passing per-case result used by concrete witnesses. -/
def missingLargeOk : PdfResult :=
  { success := true, extracted := some (String.toList "SMALL-7X9Q2"),
    expected := String.toList "SMALL-7X9Q2" }

/-- Concrete case oracle for the C4 witness: fixture `large` missing on
disk, the other three cases evaluate normally and pass. -/
def missingLargeRunCase : PdfSize → Except String PdfResult
  | .large => .error "ENOENT: no such file large.pdf"
  | _ => .ok missingLargeOk

/-- Witness for C4 at the concrete oracle with the `large` fixture
missing. -/
theorem C4_partial_failure_isolation_witness :
    runAllSizes missingLargeRunCase
      = [missingLargeOk, missingLargeOk, logFailureResult, missingLargeOk]
    ∧ logFailureResult.success = false
    ∧ logFailureResult.extracted = none
    ∧ passedCount (runAllSizes missingLargeRunCase) = 3
    ∧ (runAllSizes missingLargeRunCase).length = 4
    ∧ programExitCode missingLargeRunCase = 1 :=
  C4_partial_failure_isolation missingLargeRunCase "ENOENT: no such file large.pdf"
    missingLargeOk missingLargeOk missingLargeOk rfl rfl rfl rfl ⟨rfl, rfl, rfl⟩

/-! ## Exit contract of the cache-probe entry points

`main` of `anthropic-multi-message-cache.ts` (and the control variant)
prints CACHE WORKING / CACHE NOT WORKING but the non-error path never
calls a non-zero exit; only the catch block exits 1, so the process ends
with status 0 even when the check failed. -/

/-- Exit code of a cache-probe entry point as a function of the run's
outcome: 1 only when the run threw, 0 otherwise (regardless of the
verdict computed from the two cached-token counts). -/
def cacheProbeMainExitCode (outcome : Except String (Option Nat × Option Nat)) : Nat :=
  match outcome with
  | Except.error _ => 1
  | Except.ok _ => 0

/-- C5 counterexample: in the cache-probe entry point a failed check
(second call did not hit the cache, verdict CACHE NOT WORKING) still ends
the process with exit status 0 — the exit status is not a failure
indicator exactly when a case failed. -/
theorem C5_exit_contract_counterexample :
    (analyzeCachePair (some 0) (some 0)).success = false
    ∧ cacheProbeMainExitCode (Except.ok (some 0, some 0)) = 0 :=
  ⟨by decide, rfl⟩

/-- C5 amended: the batch entry points satisfy the exit contract — exit 0
exactly when every case passed, non-zero exactly when `passed < total` —
while the cache-probe entry points exit non-zero exactly when the run
threw an unhandled error, and exit 0 even when the cache check failed. -/
theorem C5_exit_contract_amended :
    (∀ results : List PdfResult,
        (batchExitCode results = 0 ↔ passedCount results = results.length)
        ∧ (batchExitCode results ≠ 0 ↔ passedCount results < results.length))
    ∧ (∀ outcome : Except String (Option Nat × Option Nat),
        cacheProbeMainExitCode outcome ≠ 0 ↔ outcome.isOk = false) := by
  constructor
  · intro results
    have hle : passedCount results ≤ results.length := List.length_filter_le _ _
    constructor
    · unfold batchExitCode
      split
      · rename_i h; exact ⟨fun _ => h, fun _ => rfl⟩
      · rename_i h; exact ⟨fun h1 => absurd h1 one_ne_zero, fun h1 => absurd h1 h⟩
    · unfold batchExitCode
      split
      · rename_i h; exact ⟨fun h1 => absurd rfl h1, fun h1 => absurd h (by omega)⟩
      · rename_i h; exact ⟨fun _ => by omega, fun _ => one_ne_zero⟩
  · intro outcome
    cases outcome with
    | error e => exact ⟨fun _ => rfl, fun _ => one_ne_zero⟩
    | ok v => exact ⟨fun h => absurd rfl h, fun h => Bool.noConfusion h⟩

/-- Witness for C5's amended theorem: an all-passing singleton report
exits 0, and an error outcome of the cache probe exits non-zero. -/
theorem C5_exit_contract_amended_witness :
    batchExitCode [missingLargeOk] = 0
    ∧ cacheProbeMainExitCode (Except.error "HTTP error! status: 500") ≠ 0 :=
  ⟨(C5_exit_contract_amended.1 [missingLargeOk]).1.mpr (by decide),
   (C5_exit_contract_amended.2 (Except.error "HTTP error! status: 500")).mpr rfl⟩

/-! ## API-key handling

In `processPdf` of the raw-fetch file-parser example the guard

    if (!process.env.OPENROUTER_API_KEY) throw new Error('OPENROUTER_API_KEY environment variable is not set');

precedes the `fetch` call of that case; the thrown error is caught by the
per-case catch, so all cases run (each failing locally) before the batch
exits 1.  The Effect example's client layer instead reads

    OpenRouterClient.layer({ apiKey: Redacted.make(process.env.OPENROUTER_API_KEY!) })

— the non-null assertion performs no runtime check, so layer construction
succeeds with the absent key and no configuration error is raised before
network activity. -/

/-- Trace of one raw-fetch `processPdf` call: whether its network request
was reached, and the thrown error or extraction verdict. -/
structure CaseTrace where
  networkAttempted : Bool
  outcome : Except String Bool

/-- `processPdf` of the raw-fetch example as a function of the key
environment variable, the remote call's response text (or transport
error), and the expected code. -/
def processPdfCase (apiKey : Option String) (remote : Except String (List Char))
    (expected : List Char) : CaseTrace :=
  match apiKey with
  | none =>
      { networkAttempted := false
        outcome := Except.error "OPENROUTER_API_KEY environment variable is not set" }
  | some _ =>
      match remote with
      | Except.error e => { networkAttempted := true, outcome := Except.error e }
      | Except.ok text =>
          { networkAttempted := true
            outcome := Except.ok (decide (extractCode text = some expected)) }

/-- Client configuration carried by the Effect example's layer. -/
structure ClientConfig where
  apiKey : Option String
  deriving DecidableEq

/-- Layer construction of the Effect example: the key is passed through
unchecked (`!` assertion), so construction never fails. -/
def openRouterClientLayer (env : Option String) : Except String ClientConfig :=
  Except.ok { apiKey := env }

/-- C8 counterexample: in the Effect entry point a missing API key raises
no error at all — client-layer construction succeeds carrying the absent
key — so the missing key is not a fatal error reported before network
activity for every entry point. -/
theorem C8_missing_key_counterexample :
    (openRouterClientLayer none).isOk = true
    ∧ openRouterClientLayer none = Except.ok { apiKey := none } :=
  ⟨rfl, rfl⟩

/-- C8 amended: in the raw-fetch entry points a missing API key is
detected inside each case before that case's network request (no network
activity occurs and the case fails), and the batch exits 1 after all
cases have run; the Effect entry point performs no key check — layer
construction succeeds with the absent key. -/
theorem C8_missing_key_amended :
    (∀ remote expected,
        (processPdfCase none remote expected).networkAttempted = false
        ∧ (processPdfCase none remote expected).outcome.isOk = false)
    ∧ programExitCode
        (fun _ => Except.error "OPENROUTER_API_KEY environment variable is not set") = 1
    ∧ (openRouterClientLayer none).isOk = true := by
  refine ⟨fun remote expected => ⟨rfl, rfl⟩, by decide, rfl⟩

/-! ## Report ordering under concurrency

The Effect file-parser batch launches all cases at once
(`Effect.all(..., { concurrency: 'unbounded' })`) and `run-examples.ts`
pairs `results[index]` with `examples[index]`: each case's result occupies
the slot of the case's original index, while completions (and interleaved
console output) may arrive in any order.  Completion order is modelled as
an arbitrary permutation of the index-tagged results; the report reads the
slot of each original index in order. -/

/-- Assemble the final report from completion events: slot `i` of the
report holds the result tagged with original index `i`, whatever position
the event had in the arrival order. -/
def collectByIndex (n : Nat) (arrivals : List (Nat × PdfResult)) :
    List (Option PdfResult) :=
  (List.range n).map fun i => (arrivals.find? fun p => p.1 == i).map Prod.snd

lemma find?_key_of_perm (arr canonical : List (Nat × PdfResult)) (i : Nat) (v : PdfResult)
    (hperm : List.Perm arr canonical)
    (hmem : (i, v) ∈ canonical)
    (huniq : ∀ p ∈ canonical, p.1 = i → p = (i, v)) :
    arr.find? (fun p => p.1 == i) = some (i, v) := by
  have hmem' : (i, v) ∈ arr := hperm.mem_iff.mpr hmem
  have hsome : (arr.find? fun p => p.1 == i).isSome := by
    rw [List.find?_isSome]
    exact ⟨(i, v), hmem', by simp⟩
  obtain ⟨q, hq⟩ := Option.isSome_iff_exists.mp hsome
  have hqmem : q ∈ canonical := hperm.mem_iff.mp (List.mem_of_find?_eq_some hq)
  have hqp : q.1 = i := by simpa using List.find?_some hq
  rw [hq, huniq q hqmem hqp]

/-- C9: whatever order the concurrently-launched cases complete in, the
final report follows the original `PDF_SIZES` sequence — slot `i` holds
the result of the case at original index `i`, not the `i`-th completion. -/
theorem C9_report_order_preserved (run : PdfSize → PdfResult)
    (arrivals : List (Nat × PdfResult))
    (hperm : List.Perm arrivals
      [(0, run .small), (1, run .medium), (2, run .large), (3, run .xlarge)]) :
    collectByIndex PDF_SIZES.length arrivals = PDF_SIZES.map (fun s => some (run s)) := by
  have h0 := find?_key_of_perm arrivals _ 0 (run .small) hperm (by simp)
    (by intro p hp h; fin_cases hp <;> simp_all)
  have h1 := find?_key_of_perm arrivals _ 1 (run .medium) hperm (by simp)
    (by intro p hp h; fin_cases hp <;> simp_all)
  have h2 := find?_key_of_perm arrivals _ 2 (run .large) hperm (by simp)
    (by intro p hp h; fin_cases hp <;> simp_all)
  have h3 := find?_key_of_perm arrivals _ 3 (run .xlarge) hperm (by simp)
    (by intro p hp h; fin_cases hp <;> simp_all)
  show (List.range 4).map _ = _
  rw [show List.range 4 = [0, 1, 2, 3] from rfl]
  simp only [List.map_cons, List.map_nil, h0, h1, h2, h3, Option.map_some]
  rfl

/-- Witness for C9: completions arriving in fully reversed order still
yield the report in `PDF_SIZES` order. -/
theorem C9_report_order_preserved_witness :
    collectByIndex PDF_SIZES.length
      [(3, missingLargeOk), (2, missingLargeOk), (1, missingLargeOk), (0, missingLargeOk)]
      = PDF_SIZES.map (fun s => some ((fun _ => missingLargeOk) s)) :=
  C9_report_order_preserved (fun _ => missingLargeOk)
    [(3, missingLargeOk), (2, missingLargeOk), (1, missingLargeOk), (0, missingLargeOk)]
    (by decide)

end OpenRouterExamples
